import Mathlib

/-!
Shallow embedding of the `BaseCommand` class of the `solo` CLI
(`src/commands/base.ts`) together with the configuration manager pieces it
relies on, and proofs of the behavioural properties of consensus-node
derivation, lease cleanup in command actions, and unused-config tracking.

JavaScript conventions are modelled as follows: a possibly-`undefined`
value is an `Option`, a record (`Record<K, V>` / plain object) is an
insertion-ordered association list `List (K × V)`, a thrown exception is
an `Except` error, and `Promise` results of the asynchronous calls are
passed in as `Except` values.
-/

set_option autoImplicit false

namespace Solo

/-- `SoloError` from `core/errors.js`, reduced to the data observed here:
its message (the `cause` chain is only used by `commandActionBuilder`,
which gets its own richer error type below). -/
structure SoloError where
  message : String
deriving DecidableEq, Repr

/-- One entry of `remoteConfig.components.consensusNodes`: a node record
with `name`, `nodeId`, `namespace` and owning `cluster` reference. -/
structure NodeRecord where
  name : String
  nodeId : Nat
  «namespace» : String
  cluster : String
deriving DecidableEq, Repr

/-- One entry of `remoteConfig.clusters`: the cluster metadata consulted by
`getConsensusNodes`. Either DNS field may be absent (`undefined`). -/
structure Cluster where
  dnsBaseDomain : Option String
  dnsConsensusNodePattern : Option String
deriving DecidableEq, Repr

/-- `remoteConfig.components`: the `consensusNodes` mapping may be absent;
when present it is an insertion-ordered record keyed by node key. -/
structure Components where
  consensusNodes : Option (List (String × NodeRecord))
deriving DecidableEq, Repr

/-- The `RemoteConfigManager` surface read by `BaseCommand`:
`isLoaded()`, the `clusters` record, and the `components` accessor, whose
read may itself raise (modelled as `Except String`), which
`getConsensusNodes` guards with a `try`/`catch`. -/
structure RemoteConfigManager where
  isLoaded : Bool
  clusters : List (String × Cluster)
  components : Except String (Option Components)
deriving Repr

/-- The `LocalConfig` surface read by `BaseCommand`: the
`clusterRefs` record mapping a cluster reference to a context name. -/
structure LocalConfig where
  clusterRefs : List (String × String)
deriving DecidableEq, Repr

/-- The `ConsensusNode` model (`core/model/consensus_node.js` is not part
of the provided sources; its shape is taken from the spec's data model and
the eight positional constructor arguments at the call site in
`getConsensusNodes`). -/
structure ConsensusNode where
  name : String
  nodeId : Nat
  «namespace» : String
  cluster : String
  context : Option String
  dnsBaseDomain : String
  dnsConsensusNodePattern : String
  fullyQualifiedDomainName : String
deriving DecidableEq, Repr

/-- JavaScript `record[key]`: first (only) binding of the key, `undefined`
(`none`) when absent. -/
def lookupKey {κ ν : Type} [DecidableEq κ] : List (κ × ν) → κ → Option ν
  | [], _ => none
  | (k, v) :: m, k' => if k = k' then some v else lookupKey m k'

/-- The opening brace character, spelled via its code point. -/
def lbrace : Char := Char.ofNat 123

/-- The closing brace character, spelled via its code point. -/
def rbrace : Char := Char.ofNat 125

/-- Reads a placeholder name up to the closing brace: returns the name and
the remaining characters after the brace, or `none` when no closing brace
exists. -/
def readName : List Char → Option (List Char × List Char)
  | [] => none
  | c :: cs =>
    if c = rbrace then some ([], cs)
    else
      match readName cs with
      | none => none
      | some (n, r) => some (c :: n, r)

/-- One pass of `${name}` placeholder substitution over a character list.
A placeholder whose name is bound in `env` is replaced by its value; an
unknown placeholder is kept verbatim; a lone `$` or an unterminated
placeholder is kept verbatim. The `fuel` argument (always called with at
least the list length) makes the recursion structural. -/
def substFuel (env : List (String × String)) : Nat → List Char → List Char
  | 0, l => l
  | _ + 1, [] => []
  | f + 1, c :: cs =>
    if c = '$' then
      match cs with
      | [] => [c]
      | d :: ds =>
        if d = lbrace then
          match readName ds with
          | some (n, r) =>
            match lookupKey env (String.mk n) with
            | some v => v.data ++ substFuel env f r
            | none => c :: d :: (n ++ rbrace :: substFuel env f r)
          | none => c :: d :: ds
        else c :: substFuel env f cs
    else c :: substFuel env f cs

/-- `${...}` placeholder substitution on strings. -/
def substTemplate (env : List (String × String)) (s : String) : String :=
  String.mk (substFuel env s.data.length s.data)

/-- Modelled from the spec: `Templates.renderConsensusNodeFullyQualifiedDomainName`
(`core/templates.js` is not among the provided sources; only its call site
in `getConsensusNodes` is). Spec §4.3 step 6: render the fully-qualified
domain name by substituting the `${nodeAlias}` and `${namespace}`
placeholders in the resolved pattern with the node's alias and namespace,
leaving unknown placeholders verbatim. The signature mirrors the six
positional arguments of the call site. -/
def renderConsensusNodeFullyQualifiedDomainName (nodeAlias : String)
    (_nodeId : Nat) («namespace» : String) (_cluster : String)
    (_dnsBaseDomain : String) (dnsConsensusNodePattern : String) : String :=
  substTemplate [("nodeAlias", nodeAlias), ("namespace", «namespace»)]
    dnsConsensusNodePattern

/-- The body of the `forEach` in `getConsensusNodes`: builds one
`ConsensusNode` from one node record, resolving context from the local
config and the DNS fields (with their literal fallbacks) from the cluster
record. -/
def deriveConsensusNode (clusters : List (String × Cluster))
    (localConfig : LocalConfig) (node : NodeRecord) : ConsensusNode :=
  { name := node.name
    nodeId := node.nodeId
    «namespace» := node.«namespace»
    cluster := node.cluster
    context := lookupKey localConfig.clusterRefs node.cluster
    dnsBaseDomain :=
      ((lookupKey clusters node.cluster).bind Cluster.dnsBaseDomain).getD
        "cluster.local"
    dnsConsensusNodePattern :=
      ((lookupKey clusters node.cluster).bind
          Cluster.dnsConsensusNodePattern).getD
        "network-${nodeAlias}-svc.${namespace}.svc"
    fullyQualifiedDomainName :=
      renderConsensusNodeFullyQualifiedDomainName node.name node.nodeId
        node.«namespace» node.cluster
        (((lookupKey clusters node.cluster).bind Cluster.dnsBaseDomain).getD
          "cluster.local")
        (((lookupKey clusters node.cluster).bind
            Cluster.dnsConsensusNodePattern).getD
          "network-${nodeAlias}-svc.${namespace}.svc") }

/-- `BaseCommand.getConsensusNodes`: throws a `SoloError` when the remote
configuration is not loaded; returns `[]` when the `components` access
raises or `components?.consensusNodes` is absent; otherwise maps the
record's values (in iteration order) through the `ConsensusNode`
construction. -/
def getConsensusNodes (rcm : RemoteConfigManager) (localConfig : LocalConfig) :
    Except SoloError (List ConsensusNode) :=
  if !rcm.isLoaded then
    .error ⟨"Remote configuration is not loaded, and was expected to be loaded"⟩
  else
    match rcm.components with
    | .error _ => .ok []
    | .ok none => .ok []
    | .ok (some comps) =>
      match comps.consensusNodes with
      | none => .ok []
      | some entries =>
        .ok (entries.map fun e => deriveConsensusNode rcm.clusters localConfig e.2)

/-- The loop of `BaseCommand.getContexts`: pushes each node's context
unless already present. -/
def getContextsGo (contexts : List (Option String)) :
    List ConsensusNode → List (Option String)
  | [] => contexts
  | node :: rest =>
    if node.context ∈ contexts then getContextsGo contexts rest
    else getContextsGo (contexts ++ [node.context]) rest

/-- `BaseCommand.getContexts` applied to an already-derived node sequence:
distinct contexts in first-seen order. -/
def getContextsOf (nodes : List ConsensusNode) : List (Option String) :=
  getContextsGo [] nodes

/-- `BaseCommand.getContexts`: derives the nodes, then de-duplicates their
contexts (a thrown derivation error propagates). -/
def getContexts (rcm : RemoteConfigManager) (localConfig : LocalConfig) :
    Except SoloError (List (Option String)) :=
  (getConsensusNodes rcm localConfig).map getContextsOf

/-- The loop of `BaseCommand.getClusterRefs`: adds a
`clusterRef ↦ context` binding unless the key is already present. -/
def getClusterRefsGo (refs : List (String × Option String)) :
    List ConsensusNode → List (String × Option String)
  | [] => refs
  | node :: rest =>
    if node.cluster ∈ refs.map Prod.fst then getClusterRefsGo refs rest
    else getClusterRefsGo (refs ++ [(node.cluster, node.context)]) rest

/-- `BaseCommand.getClusterRefs` applied to an already-derived node
sequence: one binding per distinct cluster reference, first-seen context
winning. -/
def getClusterRefsOf (nodes : List ConsensusNode) :
    List (String × Option String) :=
  getClusterRefsGo [] nodes

/-- `BaseCommand.getClusterRefs`: derives the nodes, then collects one
context per distinct cluster reference. -/
def getClusterRefs (rcm : RemoteConfigManager) (localConfig : LocalConfig) :
    Except SoloError (List (String × Option String)) :=
  (getConsensusNodes rcm localConfig).map getClusterRefsOf

/-- Specification-side first-seen de-duplication: keeps the first
occurrence of every element, in order. -/
def firstSeenDedup {α : Type} [DecidableEq α] : List α → List α
  | [] => []
  | a :: l => a :: (firstSeenDedup l).filter (fun x => x ≠ a)

/-- The accumulator pattern shared by `getContexts` and the key column of
`getClusterRefs`: append each element unless already present. -/
def dedupAppendGo {α : Type} [DecidableEq α] (acc : List α) : List α → List α
  | [] => acc
  | x :: l =>
    if x ∈ acc then dedupAppendGo acc l else dedupAppendGo (acc ++ [x]) l

/-- The mutable state visible to `getConsensusNodes`: the two injected
managers it reads plus unrelated command state (represented by the logger's
message list), used to express that derivation neither depends on nor
mutates anything beyond its two inputs. -/
structure World where
  remoteConfigManager : RemoteConfigManager
  localConfig : LocalConfig
  logMessages : List String

/-- `this.getRemoteConfigManager()`: a read returning the state unchanged. -/
def getRemoteConfigManagerS (w : World) : RemoteConfigManager × World :=
  (w.remoteConfigManager, w)

/-- `this.getLocalConfig()`: a read returning the state unchanged. -/
def getLocalConfigS (w : World) : LocalConfig × World :=
  (w.localConfig, w)

/-- `getConsensusNodes` as a state transformer over `World`, threading the
state through the two accessor reads it performs. -/
def getConsensusNodesS (w : World) :
    Except SoloError (List ConsensusNode) × World :=
  let (rcm, w₁) := getRemoteConfigManagerS w
  let (localConfig, w₂) := getLocalConfigS w₁
  (getConsensusNodes rcm localConfig, w₂)

/-- Error values that can travel through `commandActionBuilder`'s action:
a task failure, the `SoloError` wrapper the `catch` block builds (message
plus `cause`), and failures of the two cleanup promises. -/
inductive JsError where
  | taskErr (msg : String)
  | soloErr (msg : String) (cause : JsError)
  | closeErr (msg : String)
  | releaseErr (msg : String)
deriving DecidableEq, Repr

/-- `e.message` of a `JsError`. -/
def JsError.message : JsError → String
  | .taskErr m => m
  | .soloErr m _ => m
  | .closeErr m => m
  | .releaseErr m => m

/-- Everything observable about one run of the action function built by
`commandActionBuilder`: which cleanup calls were invoked, what the logger
recorded, and how the returned promise settled. -/
structure ActionOutcome where
  closeInvoked : Bool
  releaseInvoked : Bool
  loggedErrors : List String
  result : Except JsError Unit
deriving Repr

/-- The action function returned by `BaseCommand.commandActionBuilder`,
as a function of how its three awaited operations settle: `tasks.run()`
(`taskRun`), `commandDef.parent.close()` (`closeRun`) and
`lease.release()` (`releaseRun`, consulted only when `leasePresent`).
The `catch` block logs and throws a wrapping `SoloError`; the `finally`
block invokes `close()` and, when the lease is non-null, `release()`, and
awaits both via `Promise.all`, so a cleanup rejection becomes the
function's result, superseding anything the `try`/`catch` produced. -/
def commandActionRun (errorString : String) (leasePresent : Bool)
    (taskRun closeRun releaseRun : Except JsError Unit) : ActionOutcome :=
  let tryCatch : List String × Except JsError Unit :=
    match taskRun with
    | .ok _ => ([], .ok ())
    | .error e =>
      ([errorString ++ ": " ++ e.message],
        .error (.soloErr (errorString ++ ": " ++ e.message) e))
  let finallyResult : Except JsError Unit :=
    match closeRun with
    | .error e => .error e
    | .ok _ => if leasePresent then releaseRun else .ok ()
  { closeInvoked := true
    releaseInvoked := leasePresent
    loggedErrors := tryCatch.1
    result :=
      match finallyResult with
      | .error f => .error f
      | .ok _ => tryCatch.2 }

/-- `CommandFlag` reduced to the field `getConfig` reads: `constName`. -/
structure CommandFlag where
  constName : String
deriving DecidableEq, Repr

/-- Bumps a key's count in a `Map<string, number>` modelled as an
insertion-ordered association list, following the
`set(k, get(k) + 1 || 1)` idiom of the getter: an existing binding is
incremented in place, a missing one is appended with count 1. -/
def mapBump : List (String × Nat) → String → List (String × Nat)
  | [], n => [(n, 1)]
  | (k, c) :: m, n =>
    if k = n then (k, c + 1) :: m else (k, c) :: mapBump m n

/-- Sets a key in an association list, overwriting an existing binding in
place and appending otherwise (the backing-field write of an extra
property's setter). -/
def assocSet : List (String × String) → String → String → List (String × String)
  | [], n, v => [(n, v)]
  | (k, c) :: m, n, v =>
    if k = n then (k, v) :: m else (k, c) :: assocSet m n v

/-- One instance of the dynamic config class built by
`BaseCommand.getConfig`: the declared flags and extra properties, their
backing fields (`_name`), and the `usedConfigs` map of read counts. -/
structure ConfigState where
  flags : List CommandFlag
  extraProperties : List String
  flagVals : List (String × String)
  extraVals : List (String × String)
  usedConfigs : List (String × Nat)
deriving DecidableEq, Repr

/-- The constructor of the dynamic config class: backing fields are filled
from `configManager.getFlag` for flags and `''` for extra properties, and
`usedConfigs` starts empty. -/
def initConfig (flags : List CommandFlag) (extraProperties : List String)
    (getFlagVal : String → String) : ConfigState :=
  { flags := flags
    extraProperties := extraProperties
    flagVals := flags.map fun f => (f.constName, getFlagVal f.constName)
    extraVals := extraProperties.map fun n => (n, "")
    usedConfigs := [] }

/-- An interaction with a config instance: reading a property (which
invokes the tracking getter when the name is a declared flag or extra
property) or assigning to an extra property (which invokes the setter,
writing the backing field only). -/
inductive ConfigOp where
  | readProp (name : String)
  | writeProp (name : String) (value : String)
deriving DecidableEq, Repr

/-- Whether `name` carries one of the tracking getters defined by the
config class constructor. -/
def hasGetter (s : ConfigState) (name : String) : Bool :=
  s.flags.any (fun f => f.constName = name) || s.extraProperties.contains name

/-- Effect of one interaction on the config instance's state. -/
def stepOp (s : ConfigState) : ConfigOp → ConfigState
  | .readProp n =>
    if hasGetter s n then { s with usedConfigs := mapBump s.usedConfigs n }
    else s
  | .writeProp n v =>
    if s.extraProperties.contains n then
      { s with extraVals := assocSet s.extraVals n v }
    else s

/-- Runs a sequence of interactions against a config instance. -/
def runOps (s : ConfigState) (ops : List ConfigOp) : ConfigState :=
  ops.foldl stepOp s

/-- `getUnusedConfigs` of the dynamic config class: flags whose
`constName` is absent from `usedConfigs`, in declaration order, followed
by extra properties absent from `usedConfigs`, in declaration order. -/
def getUnusedConfigs (s : ConfigState) : List String :=
  (s.flags.filter fun f => (lookupKey s.usedConfigs f.constName).isNone).map
      CommandFlag.constName
    ++ s.extraProperties.filter fun n => (lookupKey s.usedConfigs n).isNone

/-- Which property names a sequence of interactions reads. -/
def wasRead (ops : List ConfigOp) (n : String) : Bool :=
  ops.any fun op =>
    match op with
    | .readProp m => m = n
    | .writeProp _ _ => false

/-- In the loaded state with a present `consensusNodes` record,
`getConsensusNodes` is the map of the per-entry construction over the
record's values. -/
theorem getConsensusNodes_ok (rcm : RemoteConfigManager) (lc : LocalConfig)
    (entries : List (String × NodeRecord)) (hl : rcm.isLoaded = true)
    (hc : rcm.components = .ok (some ⟨some entries⟩)) :
    getConsensusNodes rcm lc =
      .ok (entries.map fun e => deriveConsensusNode rcm.clusters lc e.2) := by
  simp [getConsensusNodes, hl, hc]

/-- C2: whenever the remote configuration is not loaded, consensus-node
derivation fails with the configuration error ("Remote configuration is
not loaded") and yields no nodes. -/
theorem getConsensusNodes_not_loaded (rcm : RemoteConfigManager)
    (lc : LocalConfig) (h : rcm.isLoaded = false) :
    getConsensusNodes rcm lc =
      .error ⟨"Remote configuration is not loaded, and was expected to be loaded"⟩ := by
  simp [getConsensusNodes, h]

/-- Witness for C2 at a concrete unloaded configuration. -/
theorem getConsensusNodes_not_loaded_witness :
    getConsensusNodes ⟨false, [], .ok none⟩ ⟨[]⟩ =
      .error ⟨"Remote configuration is not loaded, and was expected to be loaded"⟩ :=
  getConsensusNodes_not_loaded ⟨false, [], .ok none⟩ ⟨[]⟩ rfl

/-- C3: for a loaded remote configuration whose `components` access
raises, or whose `components` or `components.consensusNodes` is absent,
`getConsensusNodes` returns the empty sequence and does not throw. -/
theorem getConsensusNodes_empty_tolerance (rcm : RemoteConfigManager)
    (lc : LocalConfig) (hl : rcm.isLoaded = true)
    (h : (∃ msg, rcm.components = .error msg) ∨ rcm.components = .ok none ∨
      rcm.components = .ok (some ⟨none⟩)) :
    getConsensusNodes rcm lc = .ok [] := by
  rcases h with ⟨msg, hm⟩ | hm | hm <;> simp [getConsensusNodes, hl, hm]

/-- Witness for C3 at a concrete loaded configuration whose `components`
access raises. -/
theorem getConsensusNodes_empty_tolerance_witness :
    getConsensusNodes ⟨true, [], .error "components not loaded"⟩ ⟨[]⟩ = .ok [] :=
  getConsensusNodes_empty_tolerance ⟨true, [], .error "components not loaded"⟩ ⟨[]⟩
    rfl (Or.inl ⟨"components not loaded", rfl⟩)

/-- C4: each derived node resolves its DNS base domain and node-name
pattern from the cluster entry of its cluster reference, falling back to
the literals `cluster.local` and `network-${nodeAlias}-svc.${namespace}.svc`
when the cluster entry or the field is absent, and using the fields'
values when present. -/
theorem getConsensusNodes_dns_resolution (rcm : RemoteConfigManager)
    (lc : LocalConfig) (entries : List (String × NodeRecord)) (i : Nat)
    (hl : rcm.isLoaded = true)
    (hc : rcm.components = .ok (some ⟨some entries⟩))
    (hi : i < entries.length) :
    ∃ out, getConsensusNodes rcm lc = .ok out ∧
      ∃ _ho : i < out.length,
        (lookupKey rcm.clusters entries[i].2.cluster = none →
          out[i].dnsBaseDomain = "cluster.local" ∧
          out[i].dnsConsensusNodePattern =
            "network-${nodeAlias}-svc.${namespace}.svc") ∧
        ∀ cl, lookupKey rcm.clusters entries[i].2.cluster = some cl →
          (cl.dnsBaseDomain = none →
            out[i].dnsBaseDomain = "cluster.local") ∧
          (∀ d, cl.dnsBaseDomain = some d →
            out[i].dnsBaseDomain = d) ∧
          (cl.dnsConsensusNodePattern = none →
            out[i].dnsConsensusNodePattern =
              "network-${nodeAlias}-svc.${namespace}.svc") ∧
          (∀ p, cl.dnsConsensusNodePattern = some p →
            out[i].dnsConsensusNodePattern = p) := by
  refine ⟨_, getConsensusNodes_ok rcm lc entries hl hc, ?_⟩
  refine ⟨by simpa using hi, ?_, ?_⟩
  · intro hnone
    simp [List.getElem_map, deriveConsensusNode, hnone]
  · intro cl hcl
    refine ⟨fun hbd => ?_, fun d hbd => ?_, fun hp => ?_, fun p hp => ?_⟩
    · simp [List.getElem_map, deriveConsensusNode, hcl, hbd]
    · simp [List.getElem_map, deriveConsensusNode, hcl, hbd]
    · simp [List.getElem_map, deriveConsensusNode, hcl, hp]
    · simp [List.getElem_map, deriveConsensusNode, hcl, hp]

/-- Witness for C4: one node whose cluster has no entry, applied at a
concrete loaded configuration. -/
theorem getConsensusNodes_dns_resolution_witness :
    ∃ out,
      getConsensusNodes
          ⟨true, [], .ok (some ⟨some [("node1", ⟨"node1", 0, "ns1", "c1"⟩)]⟩)⟩
          ⟨[]⟩ = .ok out ∧
      ∃ _ho : 0 < out.length,
        (lookupKey ([] : List (String × Cluster))
            [("node1", (⟨"node1", 0, "ns1", "c1"⟩ : NodeRecord))][0].2.cluster
              = none →
          out[0].dnsBaseDomain = "cluster.local" ∧
          out[0].dnsConsensusNodePattern =
            "network-${nodeAlias}-svc.${namespace}.svc") ∧
        ∀ cl, lookupKey ([] : List (String × Cluster))
            [("node1", (⟨"node1", 0, "ns1", "c1"⟩ : NodeRecord))][0].2.cluster
              = some cl →
          (cl.dnsBaseDomain = none →
            out[0].dnsBaseDomain = "cluster.local") ∧
          (∀ d, cl.dnsBaseDomain = some d →
            out[0].dnsBaseDomain = d) ∧
          (cl.dnsConsensusNodePattern = none →
            out[0].dnsConsensusNodePattern =
              "network-${nodeAlias}-svc.${namespace}.svc") ∧
          (∀ p, cl.dnsConsensusNodePattern = some p →
            out[0].dnsConsensusNodePattern = p) :=
  getConsensusNodes_dns_resolution
    ⟨true, [], .ok (some ⟨some [("node1", ⟨"node1", 0, "ns1", "c1"⟩)]⟩)⟩
    ⟨[]⟩ [("node1", ⟨"node1", 0, "ns1", "c1"⟩)] 0 rfl rfl (by decide)

/-- C6: a node whose cluster reference has no binding in the local
configuration's `clusterRefs` gets `undefined` (`none`) as its context,
with no error raised. -/
theorem getConsensusNodes_context_undefined (rcm : RemoteConfigManager)
    (lc : LocalConfig) (entries : List (String × NodeRecord)) (i : Nat)
    (hl : rcm.isLoaded = true)
    (hc : rcm.components = .ok (some ⟨some entries⟩))
    (hi : i < entries.length)
    (habs : lookupKey lc.clusterRefs entries[i].2.cluster = none) :
    ∃ out, getConsensusNodes rcm lc = .ok out ∧
      ∃ _ho : i < out.length, out[i].context = none := by
  refine ⟨_, getConsensusNodes_ok rcm lc entries hl hc, by simpa using hi, ?_⟩
  simp [List.getElem_map, deriveConsensusNode, habs]

/-- Witness for C6 at a concrete configuration whose local config has no
binding for the node's cluster. -/
theorem getConsensusNodes_context_undefined_witness :
    ∃ out,
      getConsensusNodes
          ⟨true, [], .ok (some ⟨some [("node1", ⟨"node1", 0, "ns1", "c1"⟩)]⟩)⟩
          ⟨[("other", "ctx9")]⟩ = .ok out ∧
      ∃ _ho : 0 < out.length, out[0].context = none :=
  getConsensusNodes_context_undefined
    ⟨true, [], .ok (some ⟨some [("node1", ⟨"node1", 0, "ns1", "c1"⟩)]⟩)⟩
    ⟨[("other", "ctx9")]⟩ [("node1", ⟨"node1", 0, "ns1", "c1"⟩)] 0 rfl rfl
    (by decide) (by decide)

/-- C7: for a loaded configuration, the derived sequence has exactly one
node per entry of `components.consensusNodes`, and the i-th derived node
carries the identity fields of the i-th entry of the record in its
iteration order (no sorting). -/
theorem getConsensusNodes_order (rcm : RemoteConfigManager)
    (lc : LocalConfig) (entries : List (String × NodeRecord))
    (hl : rcm.isLoaded = true)
    (hc : rcm.components = .ok (some ⟨some entries⟩)) :
    ∃ out, getConsensusNodes rcm lc = .ok out ∧
      out.length = entries.length ∧
      ∀ i (_hi : i < entries.length) (_ho : i < out.length),
        out[i].name = entries[i].2.name ∧
        out[i].nodeId = entries[i].2.nodeId ∧
        out[i].«namespace» = entries[i].2.«namespace» ∧
        out[i].cluster = entries[i].2.cluster := by
  refine ⟨_, getConsensusNodes_ok rcm lc entries hl hc, by simp, ?_⟩
  intro i hi ho
  simp [List.getElem_map, deriveConsensusNode]

/-- Witness for C7 at a concrete two-entry record whose keys are not in
sorted order. -/
theorem getConsensusNodes_order_witness :
    ∃ out,
      getConsensusNodes
          ⟨true, [],
            .ok (some ⟨some [("nodeB", ⟨"nodeB", 1, "ns1", "c2"⟩),
              ("nodeA", ⟨"nodeA", 0, "ns1", "c1"⟩)]⟩)⟩
          ⟨[]⟩ = .ok out ∧
      out.length =
        [("nodeB", (⟨"nodeB", 1, "ns1", "c2"⟩ : NodeRecord)),
          ("nodeA", ⟨"nodeA", 0, "ns1", "c1"⟩)].length ∧
      ∀ i (_hi : i < [("nodeB", (⟨"nodeB", 1, "ns1", "c2"⟩ : NodeRecord)),
          ("nodeA", ⟨"nodeA", 0, "ns1", "c1"⟩)].length) (_ho : i < out.length),
        out[i].name =
          [("nodeB", (⟨"nodeB", 1, "ns1", "c2"⟩ : NodeRecord)),
            ("nodeA", ⟨"nodeA", 0, "ns1", "c1"⟩)][i].2.name ∧
        out[i].nodeId =
          [("nodeB", (⟨"nodeB", 1, "ns1", "c2"⟩ : NodeRecord)),
            ("nodeA", ⟨"nodeA", 0, "ns1", "c1"⟩)][i].2.nodeId ∧
        out[i].«namespace» =
          [("nodeB", (⟨"nodeB", 1, "ns1", "c2"⟩ : NodeRecord)),
            ("nodeA", ⟨"nodeA", 0, "ns1", "c1"⟩)][i].2.«namespace» ∧
        out[i].cluster =
          [("nodeB", (⟨"nodeB", 1, "ns1", "c2"⟩ : NodeRecord)),
            ("nodeA", ⟨"nodeA", 0, "ns1", "c1"⟩)][i].2.cluster :=
  getConsensusNodes_order
    ⟨true, [],
      .ok (some ⟨some [("nodeB", ⟨"nodeB", 1, "ns1", "c2"⟩),
        ("nodeA", ⟨"nodeA", 0, "ns1", "c1"⟩)]⟩)⟩
    ⟨[]⟩
    [("nodeB", ⟨"nodeB", 1, "ns1", "c2"⟩), ("nodeA", ⟨"nodeA", 0, "ns1", "c1"⟩)]
    rfl rfl

/-- C9: consensus-node derivation is a pure function of the remote and
local configurations: two runs from states agreeing on those two inputs
produce equal results, and neither run changes its state. -/
theorem getConsensusNodes_pure (w₁ w₂ : World)
    (hr : w₁.remoteConfigManager = w₂.remoteConfigManager)
    (hl : w₁.localConfig = w₂.localConfig) :
    (getConsensusNodesS w₁).1 = (getConsensusNodesS w₂).1 ∧
    (getConsensusNodesS w₁).2 = w₁ ∧ (getConsensusNodesS w₂).2 = w₂ := by
  simp [getConsensusNodesS, getRemoteConfigManagerS, getLocalConfigS, hr, hl]

/-- Witness for C9 at two concrete states agreeing on the configurations
but differing in unrelated logger state. -/
theorem getConsensusNodes_pure_witness :
    (getConsensusNodesS ⟨⟨true, [], .ok none⟩, ⟨[("c1", "ctx1")]⟩, []⟩).1 =
      (getConsensusNodesS ⟨⟨true, [], .ok none⟩, ⟨[("c1", "ctx1")]⟩, ["log entry"]⟩).1 ∧
    (getConsensusNodesS ⟨⟨true, [], .ok none⟩, ⟨[("c1", "ctx1")]⟩, []⟩).2 =
      ⟨⟨true, [], .ok none⟩, ⟨[("c1", "ctx1")]⟩, []⟩ ∧
    (getConsensusNodesS ⟨⟨true, [], .ok none⟩, ⟨[("c1", "ctx1")]⟩, ["log entry"]⟩).2 =
      ⟨⟨true, [], .ok none⟩, ⟨[("c1", "ctx1")]⟩, ["log entry"]⟩ :=
  getConsensusNodes_pure
    ⟨⟨true, [], .ok none⟩, ⟨[("c1", "ctx1")]⟩, []⟩
    ⟨⟨true, [], .ok none⟩, ⟨[("c1", "ctx1")]⟩, ["log entry"]⟩ rfl rfl

/-- C1 counterexample: it is not the case that, whenever the task body
throws, the built action re-raises the (wrapped) original error
unconditionally — a rejecting `lease.release()` in the `finally` block
replaces it. Concretely: task error `boom`, close resolves, release
rejects with `release failed`, and the action's result is the release
failure, not the wrapped task error. -/
theorem commandActionRun_masking_counterexample :
    ¬ ∀ (es : String) (t c r : Except JsError Unit) (e : JsError),
        t = .error e →
        (commandActionRun es true t c r).releaseInvoked = true ∧
        (commandActionRun es true t c r).result =
          .error (.soloErr (es ++ ": " ++ e.message) e) := by
  intro h
  have h2 := (h "E" (.error (.taskErr "boom")) (.ok ())
    (.error (.releaseErr "release failed")) (.taskErr "boom") rfl).2
  simp [commandActionRun, JsError.message] at h2

/-- C1 amended: with a non-null lease, `release()` is invoked on every
exit path of the task run; when the task body throws and both cleanup
promises resolve, the original error is re-raised wrapped in a `SoloError`
carrying it as cause; but when `release()` rejects (with `close()`
resolving), the release failure becomes the action's result, masking the
original error. -/
theorem commandActionRun_release_on_all_paths (es : String)
    (t c r : Except JsError Unit) :
    (commandActionRun es true t c r).releaseInvoked = true ∧
    (∀ e, t = .error e → c = .ok () → r = .ok () →
      (commandActionRun es true t c r).result =
        .error (.soloErr (es ++ ": " ++ e.message) e)) ∧
    (∀ e f, t = .error e → c = .ok () → r = .error f →
      (commandActionRun es true t c r).result = .error f) := by
  refine ⟨rfl, fun e ht hc hr => ?_, fun e f ht hc hr => ?_⟩ <;>
    subst ht <;> subst hc <;> subst hr <;> simp [commandActionRun]

/-- Witness for the amended C1 at concrete settlements: release is
invoked, and a failing release masks the thrown task error. -/
theorem commandActionRun_release_on_all_paths_witness :
    (commandActionRun "deploy failed" true (.error (.taskErr "boom")) (.ok ())
      (.error (.releaseErr "release failed"))).releaseInvoked = true ∧
    (commandActionRun "deploy failed" true (.error (.taskErr "boom")) (.ok ())
      (.error (.releaseErr "release failed"))).result =
      .error (.releaseErr "release failed") :=
  ⟨(commandActionRun_release_on_all_paths "deploy failed"
      (.error (.taskErr "boom")) (.ok ()) (.error (.releaseErr "release failed"))).1,
    (commandActionRun_release_on_all_paths "deploy failed"
      (.error (.taskErr "boom")) (.ok ()) (.error (.releaseErr "release failed"))).2.2
      (.taskErr "boom") (.releaseErr "release failed") rfl rfl rfl⟩

/-- C5: each derived node's fully-qualified domain name is the result of
substituting the `${nodeAlias}` and `${namespace}` placeholders of the
resolved pattern with the node's alias and namespace; on the default
pattern this yields `network-<alias>-svc.<namespace>.svc` for every alias
and namespace; unknown placeholders are left verbatim; and in particular
alias `node1` with namespace `ns1` renders `network-node1-svc.ns1.svc`. -/
theorem getConsensusNodes_fqdn_rendering :
    (∀ (rcm : RemoteConfigManager) (lc : LocalConfig)
      (entries : List (String × NodeRecord)) (i : Nat),
      rcm.isLoaded = true →
      rcm.components = .ok (some ⟨some entries⟩) →
      ∀ _hi : i < entries.length,
        ∃ out, getConsensusNodes rcm lc = .ok out ∧
          ∃ _ho : i < out.length,
            out[i].fullyQualifiedDomainName =
              substTemplate
                [("nodeAlias", entries[i].2.name),
                  ("namespace", entries[i].2.«namespace»)]
                out[i].dnsConsensusNodePattern) ∧
    (∀ (al ns : String) (nid : Nat) (cl bd : String),
      renderConsensusNodeFullyQualifiedDomainName al nid ns cl bd
          "network-${nodeAlias}-svc.${namespace}.svc" =
        "network-" ++ al ++ "-svc." ++ ns ++ ".svc") ∧
    (∀ (al ns : String) (nid : Nat) (cl bd : String),
      renderConsensusNodeFullyQualifiedDomainName al nid ns cl bd
          "pre-${unknownKey}.${nodeAlias}" = "pre-${unknownKey}." ++ al) ∧
    (∃ out, getConsensusNodes
        ⟨true, [], .ok (some ⟨some [("node1", ⟨"node1", 0, "ns1", "c1"⟩)]⟩)⟩
        ⟨[]⟩ = .ok out ∧
      ∃ _h : 0 < out.length,
        out[0].fullyQualifiedDomainName = "network-node1-svc.ns1.svc") := by
  refine ⟨?_, ?_, ?_, ?_⟩
  · intro rcm lc entries i hl hc hi
    refine ⟨_, getConsensusNodes_ok rcm lc entries hl hc, by simpa using hi, ?_⟩
    simp [List.getElem_map, deriveConsensusNode,
      renderConsensusNodeFullyQualifiedDomainName]
  · intro al ns nid cl bd
    apply String.ext
    simp [renderConsensusNodeFullyQualifiedDomainName, substTemplate, substFuel,
      readName, lookupKey, lbrace, rbrace]
  · intro al ns nid cl bd
    apply String.ext
    simp [renderConsensusNodeFullyQualifiedDomainName, substTemplate, substFuel,
      readName, lookupKey, lbrace, rbrace]
  · exact ⟨_, rfl, by decide, by decide⟩

/-- Witness for C5 at a concrete derivation: the rendered name is the
substitution instance of the resolved pattern. -/
theorem getConsensusNodes_fqdn_rendering_witness :
    ∃ out, getConsensusNodes
        ⟨true, [], .ok (some ⟨some [("n7", ⟨"n7", 7, "nsX", "cX"⟩)]⟩)⟩
        ⟨[]⟩ = .ok out ∧
      ∃ _ho : 0 < out.length,
        out[0].fullyQualifiedDomainName =
          substTemplate
            [("nodeAlias",
                [("n7", (⟨"n7", 7, "nsX", "cX"⟩ : NodeRecord))][0].2.name),
              ("namespace",
                [("n7", (⟨"n7", 7, "nsX", "cX"⟩ : NodeRecord))][0].2.«namespace»)]
            out[0].dnsConsensusNodePattern :=
  getConsensusNodes_fqdn_rendering.1
    ⟨true, [], .ok (some ⟨some [("n7", ⟨"n7", 7, "nsX", "cX"⟩)]⟩)⟩ ⟨[]⟩
    [("n7", ⟨"n7", 7, "nsX", "cX"⟩)] 0 rfl rfl (by decide)

/-- A key is absent from a record exactly when it is not in the key
column. -/
theorem lookupKey_eq_none {κ ν : Type} [DecidableEq κ] (m : List (κ × ν))
    (k : κ) : lookupKey m k = none ↔ k ∉ m.map Prod.fst := by
  induction m with
  | nil => simp [lookupKey]
  | cons p m ih =>
    obtain ⟨a, b⟩ := p
    by_cases h : a = k
    · simp [lookupKey, h]
    · simp only [lookupKey, if_neg h, ih, List.map_cons, List.mem_cons]
      constructor
      · exact fun hn hor => hor.elim (fun he => h he.symm) hn
      · exact fun hn hm => hn (Or.inr hm)

/-- Lookup over an appended record consults the first record first. -/
theorem lookupKey_append {κ ν : Type} [DecidableEq κ] (m₁ m₂ : List (κ × ν))
    (k : κ) :
    lookupKey (m₁ ++ m₂) k =
      match lookupKey m₁ k with
      | some v => some v
      | none => lookupKey m₂ k := by
  induction m₁ with
  | nil => simp [lookupKey]
  | cons p m ih =>
    obtain ⟨a, b⟩ := p
    by_cases h : a = k <;> simp [lookupKey, h, ih]

/-- Filtering by non-membership in `acc` ignores a further filter by
difference from a member of `acc`. -/
theorem filter_ne_of_mem {α : Type} [DecidableEq α] (l acc : List α) (x : α)
    (hx : x ∈ acc) :
    l.filter (fun a => a ∉ acc) =
      ((l.filter fun a => a ≠ x).filter fun a => a ∉ acc) := by
  rw [List.filter_filter]
  apply List.filter_congr
  intro a _
  by_cases h1 : a ∈ acc
  · simp [h1]
  · have h2 : a ≠ x := fun he => h1 (he ▸ hx)
    simp [h1, h2]

/-- Non-membership in `acc ++ [x]` splits into difference from `x` and
non-membership in `acc`. -/
theorem filter_not_mem_append_singleton {α : Type} [DecidableEq α]
    (l acc : List α) (x : α) :
    l.filter (fun a => a ∉ acc ++ [x]) =
      ((l.filter fun a => a ≠ x).filter fun a => a ∉ acc) := by
  rw [List.filter_filter]
  apply List.filter_congr
  intro a _
  by_cases h1 : a ∈ acc <;> by_cases h2 : a = x <;> simp [h1, h2]

/-- The append-unless-present accumulator loop computes first-seen
de-duplication of whatever is not yet in the accumulator. -/
theorem dedupAppendGo_eq {α : Type} [DecidableEq α] (l : List α) :
    ∀ acc, dedupAppendGo acc l =
      acc ++ (firstSeenDedup l).filter fun x => x ∉ acc := by
  induction l with
  | nil => intro acc; simp [dedupAppendGo, firstSeenDedup]
  | cons x l ih =>
    intro acc
    by_cases hx : x ∈ acc
    · rw [dedupAppendGo, if_pos hx, ih acc, firstSeenDedup, List.filter_cons,
        if_neg (by simp [hx]), ← filter_ne_of_mem _ acc x hx]
    · rw [dedupAppendGo, if_neg hx, ih (acc ++ [x]), firstSeenDedup,
        List.filter_cons, if_pos (by simp [hx]),
        filter_not_mem_append_singleton _ acc x, List.append_assoc,
        List.singleton_append]

/-- `getContexts`' loop is the generic append-unless-present loop over
the nodes' contexts. -/
theorem getContextsGo_eq (nodes : List ConsensusNode) :
    ∀ acc, getContextsGo acc nodes =
      dedupAppendGo acc (nodes.map ConsensusNode.context) := by
  induction nodes with
  | nil => intro acc; rfl
  | cons n rest ih =>
    intro acc
    by_cases h : n.context ∈ acc <;>
      simp [getContextsGo, dedupAppendGo, h, ih]

/-- The key column of `getClusterRefs`' loop is the generic
append-unless-present loop over the nodes' cluster references. -/
theorem getClusterRefsGo_keys (nodes : List ConsensusNode) :
    ∀ refs, (getClusterRefsGo refs nodes).map Prod.fst =
      dedupAppendGo (refs.map Prod.fst) (nodes.map ConsensusNode.cluster) := by
  induction nodes with
  | nil => intro refs; rfl
  | cons n rest ih =>
    intro refs
    by_cases h : n.cluster ∈ refs.map Prod.fst <;>
      simp [getClusterRefsGo, dedupAppendGo, h, ih]

/-- In `getClusterRefs`' loop, a key already bound keeps its binding, and
an unbound key ends up bound to the context of the first node carrying
it. -/
theorem getClusterRefsGo_lookup (nodes : List ConsensusNode) :
    ∀ refs k, lookupKey (getClusterRefsGo refs nodes) k =
      match lookupKey refs k with
      | some v => some v
      | none => (nodes.find? fun n => n.cluster = k).map ConsensusNode.context := by
  induction nodes with
  | nil =>
    intro refs k
    cases h : lookupKey refs k <;> simp [getClusterRefsGo, h]
  | cons n rest ih =>
    intro refs k
    by_cases hmem : n.cluster ∈ refs.map Prod.fst
    · rw [getClusterRefsGo, if_pos hmem, ih]
      by_cases hk : n.cluster = k
      · subst hk
        have hs : lookupKey refs n.cluster ≠ none := by
          rw [Ne, lookupKey_eq_none]
          simpa using hmem
        obtain ⟨v, hv⟩ := Option.ne_none_iff_exists.mp (by simpa using hs)
        simp [hv.symm]
      · cases h : lookupKey refs k <;> simp [h, List.find?_cons, hk]
    · rw [getClusterRefsGo, if_neg hmem, ih, lookupKey_append]
      have hnone : lookupKey refs n.cluster = none :=
        (lookupKey_eq_none refs n.cluster).mpr hmem
      by_cases hk : n.cluster = k
      · subst hk
        simp [hnone, lookupKey, List.find?_cons]
      · cases h : lookupKey refs k <;>
          simp [h, lookupKey, hk, List.find?_cons]

/-- C8: for every derived node sequence, `getContexts` is the contexts
de-duplicated in first-seen order; `getClusterRefs` has one entry per
distinct cluster reference (first-seen order), each mapped to the context
of the first node carrying that cluster reference; and two nodes sharing
a cluster reference but with different contexts contribute exactly one
entry, valued by the first-encountered context. -/
theorem getContexts_getClusterRefs_spec :
    (∀ (rcm : RemoteConfigManager) (lc : LocalConfig)
      (nodes : List ConsensusNode), getConsensusNodes rcm lc = .ok nodes →
      getContexts rcm lc = .ok (getContextsOf nodes) ∧
      getClusterRefs rcm lc = .ok (getClusterRefsOf nodes)) ∧
    (∀ nodes : List ConsensusNode,
      getContextsOf nodes = firstSeenDedup (nodes.map ConsensusNode.context) ∧
      (getClusterRefsOf nodes).map Prod.fst =
        firstSeenDedup (nodes.map ConsensusNode.cluster) ∧
      ∀ k, lookupKey (getClusterRefsOf nodes) k =
        (nodes.find? fun n => n.cluster = k).map ConsensusNode.context) ∧
    getClusterRefsOf
        [⟨"node1", 0, "ns1", "c1", some "ctxA", "d", "p", "f1"⟩,
          ⟨"node2", 1, "ns1", "c1", some "ctxB", "d", "p", "f2"⟩] =
      [("c1", some "ctxA")] := by
  refine ⟨fun rcm lc nodes h => ?_, fun nodes => ?_, by decide⟩
  · constructor <;> simp [getContexts, getClusterRefs, h, Except.map]
  · refine ⟨?_, ?_, fun k => ?_⟩
    · rw [getContextsOf, getContextsGo_eq, dedupAppendGo_eq]
      simp
    · rw [getClusterRefsOf, getClusterRefsGo_keys, dedupAppendGo_eq]
      simp
    · rw [getClusterRefsOf, getClusterRefsGo_lookup]
      simp [lookupKey]

/-- Witness for C8 at a concrete derivation. -/
theorem getContexts_getClusterRefs_spec_witness :
    getContexts ⟨true, [], .ok none⟩ ⟨[]⟩ = .ok (getContextsOf []) ∧
    getClusterRefs ⟨true, [], .ok none⟩ ⟨[]⟩ = .ok (getClusterRefsOf []) :=
  getContexts_getClusterRefs_spec.1 ⟨true, [], .ok none⟩ ⟨[]⟩ [] rfl

/-- A property interaction never changes the declared flags or extra
properties of a config instance. -/
theorem stepOp_fields (s : ConfigState) (op : ConfigOp) :
    (stepOp s op).flags = s.flags ∧
    (stepOp s op).extraProperties = s.extraProperties := by
  cases op <;> simp only [stepOp] <;> split <;> exact ⟨rfl, rfl⟩

/-- A property interaction never changes which names carry getters. -/
theorem hasGetter_stepOp (s : ConfigState) (op : ConfigOp) (n : String) :
    hasGetter (stepOp s op) n = hasGetter s n := by
  rw [hasGetter, (stepOp_fields s op).1, (stepOp_fields s op).2, hasGetter]

/-- A run of interactions never changes the declared flags or extra
properties of a config instance. -/
theorem runOps_fields (ops : List ConfigOp) : ∀ s : ConfigState,
    (runOps s ops).flags = s.flags ∧
    (runOps s ops).extraProperties = s.extraProperties := by
  induction ops with
  | nil => exact fun s => ⟨rfl, rfl⟩
  | cons op rest ih =>
    intro s
    have h := ih (stepOp s op)
    rw [runOps, List.foldl_cons, ← runOps] at *
    exact ⟨h.1.trans (stepOp_fields s op).1, h.2.trans (stepOp_fields s op).2⟩

/-- Bool-level description of `Option.isNone`. -/
theorem isNone_eq_not_isSome {α : Type} (o : Option α) :
    o.isNone = !o.isSome := by
  cases o <;> rfl

/-- Bumping a key makes exactly that key present (all other keys keep
their presence status). -/
theorem lookupKey_mapBump (m : List (String × Nat)) (n k : String) :
    (lookupKey (mapBump m n) k).isSome =
      (decide (k = n) || (lookupKey m k).isSome) := by
  induction m with
  | nil =>
    by_cases h : n = k
    · subst h; simp [mapBump, lookupKey]
    · have hkn : ¬k = n := fun he => h he.symm
      simp [mapBump, lookupKey, h, hkn]
  | cons p m ih =>
    obtain ⟨a, c⟩ := p
    by_cases h1 : a = n <;> by_cases h2 : a = k
    · subst h1; subst h2; simp [mapBump, lookupKey]
    · subst h1
      have hkn : ¬k = a := fun he => h2 he.symm
      simp [mapBump, lookupKey, h2, hkn]
    · subst h2
      have hkn : ¬a = n := h1
      simp [mapBump, lookupKey, h1, hkn]
    · simp [mapBump, lookupKey, h1, h2, ih]

/-- An assignment interaction never changes the `usedConfigs` map. -/
theorem stepOp_write_usedConfigs (s : ConfigState) (n v : String) :
    (stepOp s (.writeProp n v)).usedConfigs = s.usedConfigs := by
  simp only [stepOp]; split <;> rfl

/-- Presence in `usedConfigs` after a run: a name is present exactly when
it was present before, or the run read it and it carries a getter. -/
theorem runOps_usedConfigs (ops : List ConfigOp) : ∀ (s : ConfigState)
    (n : String), (lookupKey (runOps s ops).usedConfigs n).isSome =
      ((lookupKey s.usedConfigs n).isSome || (wasRead ops n && hasGetter s n)) := by
  induction ops with
  | nil => intro s n; simp [runOps, wasRead]
  | cons op rest ih =>
    intro s n
    rw [runOps, List.foldl_cons, ← runOps, ih, hasGetter_stepOp]
    cases op with
    | readProp m =>
      by_cases hg : hasGetter s m
      · rw [stepOp, if_pos hg, lookupKey_mapBump]
        by_cases hmn : m = n
        · subst hmn; simp [wasRead, hg]
        · have hnm : ¬n = m := fun he => hmn he.symm
          simp [wasRead, hnm, hmn, Bool.or_assoc]
      · rw [stepOp, if_neg hg]
        by_cases hmn : m = n
        · subst hmn
          simp [wasRead, hg, Bool.eq_false_iff.mpr hg]
        · simp [wasRead, hmn]
    | writeProp m v =>
      rw [stepOp_write_usedConfigs]
      simp [wasRead]

/-- C10: after any sequence of property reads and extra-property
assignments against a config instance built by `getConfig`,
`getUnusedConfigs` returns exactly the flag `constName`s never read, in
declaration order, followed by the extra property names never read, in
declaration order; a read permanently excludes a name, and an assignment
to an extra property does not count as a read. -/
theorem getUnusedConfigs_spec (flags : List CommandFlag)
    (extras : List String) (getFlagVal : String → String)
    (ops : List ConfigOp) :
    getUnusedConfigs (runOps (initConfig flags extras getFlagVal) ops) =
      ((flags.filter fun f => !(wasRead ops f.constName)).map
          CommandFlag.constName
        ++ extras.filter fun n => !(wasRead ops n)) ∧
    (∀ (n v : String) (ops2 : List ConfigOp),
      wasRead (ConfigOp.writeProp n v :: ops2) n = wasRead ops2 n) ∧
    (∀ (n : String) (ops2 : List ConfigOp),
      wasRead (ConfigOp.readProp n :: ops2) n = true) := by
  refine ⟨?_, fun n v ops2 => by simp [wasRead],
    fun n ops2 => by simp [wasRead]⟩
  have hf := runOps_fields ops (initConfig flags extras getFlagVal)
  rw [getUnusedConfigs, hf.1, hf.2]
  simp only [initConfig]
  congr 1
  · congr 1
    apply List.filter_congr
    intro f hfmem
    rw [isNone_eq_not_isSome, runOps_usedConfigs]
    have hg : hasGetter (initConfig flags extras getFlagVal) f.constName = true := by
      simp only [hasGetter, initConfig, Bool.or_eq_true, List.any_eq_true]
      exact Or.inl ⟨f, hfmem, by simp⟩
    simp only [initConfig] at hg
    simp [initConfig, lookupKey, hg]
  · apply List.filter_congr
    intro n hn
    rw [isNone_eq_not_isSome, runOps_usedConfigs]
    have hg : hasGetter (initConfig flags extras getFlagVal) n = true := by
      simp only [hasGetter, initConfig, Bool.or_eq_true]
      exact Or.inr (by simpa using hn)
    simp only [initConfig] at hg
    simp [initConfig, lookupKey, hg]

end Solo
